import Mathlib

/-!
Shallow embedding of the mobx-state-tree operations layer
(src/core/mst-operations.ts) and of the spec-described Node behaviour it
delegates to.  Values stored in nodes are abstracted as natural numbers.
-/

namespace MST

/-- Error values raised by the operations layer.  Every error in the source
goes through the helper fail(message); each constructor below corresponds to
one fail call site and carries the data interpolated into its message. -/
inductive MstError : Type where
  /-- Invalid depth: d, should be >= 1 (guard in hasParent / getParent). -/
  | invalidDepth (depth : Int)
  /-- Failed to find the parent of node at depth d (end of the getParent loop). -/
  | parentNotFound (depth : Int)
  /-- protect / unprotect can only be invoked on root nodes. -/
  | notRoot (op : String)
  /-- Expected a type as first argument (resolveIdentifier). -/
  | expectedType
  /-- Strict path resolution failed (Node.resolve with throwOnFail). -/
  | resolutionError (path : String)
deriving Repr, DecidableEq

/-- Classification of errors as the spec's InvalidArgumentError kind:
negative depth, non-root protect/unprotect target, non-type argument where a
type is required (spec section 7). -/
def MstError.isInvalidArgumentError : MstError → Bool
  | .invalidDepth _ => true
  | .notRoot _ => true
  | .expectedType => true
  | .parentNotFound _ => false
  | .resolutionError _ => false

/-- Per-node bookkeeping of a tree node: its stored value (abstracted as a
natural number), the alive flag and the protection flag. -/
structure NodeInfo where
  storedValue : Nat
  isAlive : Bool
  isProtectionEnabled : Bool
deriving Repr, DecidableEq

/-- A tree node viewed through its upward links, which is all the parent
navigation operations consult.  The source Node has parent : Node | null;
here the whole chain of ancestors is laid out as a list, nearest parent
first, so that parent = none corresponds to parentChain = [] and
parent.parent drops one element. -/
structure PNode where
  info : NodeInfo
  parentChain : List NodeInfo
deriving Repr, DecidableEq

/-- The parent back-reference of a node: the head of its ancestor chain. -/
def PNode.parent (n : PNode) : Option PNode :=
  match n.parentChain with
  | [] => none
  | p :: rest => some ⟨p, rest⟩

/-- Modelled from the spec: Node.isRoot (the Node class is not under src/):
isRoot is true iff parent is none. -/
def PNode.isRootNode (n : PNode) : Bool := n.parentChain.isEmpty

/-- The loop of getParent: d is decremented first, and when it hits zero the
current parent's storedValue is returned; when the chain runs out the
failed-to-find-parent error reports the original depth argument. -/
def getParentGo (depth : Int) : Int → List NodeInfo → Except MstError Nat
  | _, [] => .error (.parentNotFound depth)
  | d, p :: rest =>
      if d - 1 = 0 then .ok p.storedValue else getParentGo depth (d - 1) rest

/-- getParent from mst-operations.ts: guard depth < 0, then walk the parent
chain decrementing the counter, returning the stored value when the counter
reaches zero, failing when the chain ends first. -/
def getParent (target : PNode) (depth : Int) : Except MstError Nat :=
  if depth < 0 then .error (.invalidDepth depth)
  else getParentGo depth depth target.parentChain

/-- The loop of hasParent: same walk as getParent, returning a boolean. -/
def hasParentGo : Int → List NodeInfo → Bool
  | _, [] => false
  | d, _ :: rest => if d - 1 = 0 then true else hasParentGo (d - 1) rest

/-- hasParent from mst-operations.ts: guard depth < 0, then the same walk as
getParent, answering whether an ancestor is reached at the given depth. -/
def hasParent (target : PNode) (depth : Int) : Except MstError Bool :=
  if depth < 0 then .error (.invalidDepth depth)
  else .ok (hasParentGo depth target.parentChain)

/-- isRoot from mst-operations.ts: delegates to the node's isRoot flag. -/
def isRoot (target : PNode) : Bool := target.isRootNode

/-- isAlive from mst-operations.ts: delegates to the node's isAlive flag. -/
def isAlive (thing : PNode) : Bool := thing.info.isAlive

/-- Modelled from the spec: Node.detach (the Node class is not under src/):
removes this node from its parent's children, clears parent, makes this node
a new root; the value remains alive and usable. -/
def PNode.detachNode (n : PNode) : PNode := { n with parentChain := [] }

/-- detach from mst-operations.ts: calls Node.detach on the target's node and
returns the thing it was given (here: the node carrying the same stored
value, now detached). -/
def detach (thing : PNode) : PNode := thing.detachNode

/-- protect from mst-operations.ts: fails unless the node is a root, then
sets isProtectionEnabled to true.  The thrown error propagates, so on a
non-root the flag assignment is never reached and the node is unchanged. -/
def protect (target : PNode) : Except MstError PNode :=
  if !target.isRootNode then .error (.notRoot "protect")
  else .ok { target with info := { target.info with isProtectionEnabled := true } }

/-- unprotect from mst-operations.ts: fails unless the node is a root, then
sets isProtectionEnabled to false. -/
def unprotect (target : PNode) : Except MstError PNode :=
  if !target.isRootNode then .error (.notRoot "unprotect")
  else .ok { target with info := { target.info with isProtectionEnabled := false } }

/-- The ancestor of a node exactly depth steps up its parent chain (depth 1
is the immediate parent), used to state what the getParent walk computes. -/
def ancestorAt (n : PNode) (depth : Int) : Option NodeInfo :=
  n.parentChain.get? (depth - 1).toNat

end MST

namespace MST

theorem getParentGo_nonpos (depth : Int) :
    ∀ (chain : List NodeInfo) (d : Int), d ≤ 0 →
      getParentGo depth d chain = .error (.parentNotFound depth) := by
  intro chain
  induction chain with
  | nil => intro d _; rfl
  | cons p rest ih =>
      intro d hd
      have hne : ¬ d - 1 = 0 := by omega
      simp only [getParentGo, if_neg hne]
      exact ih (d - 1) (by omega)

theorem getParentGo_pos (depth : Int) :
    ∀ (chain : List NodeInfo) (d : Int), 1 ≤ d →
      getParentGo depth d chain =
        match chain.get? (d - 1).toNat with
        | some a => .ok a.storedValue
        | none => .error (.parentNotFound depth) := by
  intro chain
  induction chain with
  | nil => intro d _; rfl
  | cons p rest ih =>
      intro d hd
      by_cases h1 : d = 1
      · subst h1; simp [getParentGo]
      · have hne : ¬ d - 1 = 0 := by omega
        have hd1 : 1 ≤ d - 1 := by omega
        have hidx : (d - 1).toNat = ((d - 1 : Int) - 1).toNat + 1 := by omega
        simp only [getParentGo, if_neg hne, ih (d - 1) hd1, hidx, List.get?]

theorem hasParentGo_pos :
    ∀ (chain : List NodeInfo) (d : Int), 1 ≤ d →
      hasParentGo d chain = (chain.get? (d - 1).toNat).isSome := by
  intro chain
  induction chain with
  | nil => intro d _; rfl
  | cons p rest ih =>
      intro d hd
      by_cases h1 : d = 1
      · subst h1; simp [hasParentGo]
      · have hne : ¬ d - 1 = 0 := by omega
        have hd1 : 1 ≤ d - 1 := by omega
        have hidx : (d - 1).toNat = ((d - 1 : Int) - 1).toNat + 1 := by omega
        simp only [hasParentGo, if_neg hne, ih (d - 1) hd1, hidx, List.get?]

/-- Sample nodes used by the concrete witnesses: a root holding 7, and a
child holding 5 whose only ancestor is that root. -/
def sampleRoot : PNode := ⟨⟨7, true, true⟩, []⟩

/-- Sample non-root child node, see sampleRoot. -/
def sampleChild : PNode := ⟨⟨5, true, false⟩, [⟨7, true, true⟩]⟩

/-- C1: the claim says getParent(N, 0) fails with an InvalidArgumentError
reporting that depth must be >= 1.  The code's guard tests depth < 0, so
depth 0 slips past it; the loop decrements its counter below zero, never
returns, walks the whole parent chain and raises the failed-to-find-parent
resolution error instead, which is not of the InvalidArgumentError kind.
This contradicts the guard's own message (should be >= 1). -/
theorem C1_getParent_depth_zero (n : PNode) :
    getParent n 0 = .error (.parentNotFound 0) ∧
    (MstError.parentNotFound 0).isInvalidArgumentError = false := by
  constructor
  · have h0 : ¬ (0 : Int) < 0 := by omega
    simp only [getParent, if_neg h0]
    exact getParentGo_nonpos 0 n.parentChain 0 (by omega)
  · rfl

/-- C2: protect and unprotect fail with an InvalidArgumentError (non-root
target) on every non-root node — the thrown error propagates before the flag
assignment, so the node is left unchanged — while on a root they set
isProtectionEnabled to true resp. false. -/
theorem C2_protect_unprotect (n : PNode) :
    (isRoot n = false →
       protect n = .error (.notRoot "protect") ∧
       unprotect n = .error (.notRoot "unprotect") ∧
       (MstError.notRoot "protect").isInvalidArgumentError = true ∧
       (MstError.notRoot "unprotect").isInvalidArgumentError = true) ∧
    (isRoot n = true →
       protect n = .ok { n with info := { n.info with isProtectionEnabled := true } } ∧
       unprotect n = .ok { n with info := { n.info with isProtectionEnabled := false } }) := by
  constructor
  · intro hnr
    have : n.isRootNode = false := hnr
    simp [protect, unprotect, this, MstError.isInvalidArgumentError]
  · intro hr
    have : n.isRootNode = true := hr
    simp [protect, unprotect, this]

/-- C2 witness: the theorem applied to the concrete non-root sampleChild and
to the concrete root sampleRoot. -/
theorem C2_witness :
    (protect sampleChild = .error (.notRoot "protect") ∧
     unprotect sampleChild = .error (.notRoot "unprotect") ∧
     (MstError.notRoot "protect").isInvalidArgumentError = true ∧
     (MstError.notRoot "unprotect").isInvalidArgumentError = true) ∧
    (protect sampleRoot =
       .ok { sampleRoot with info := { sampleRoot.info with isProtectionEnabled := true } } ∧
     unprotect sampleRoot =
       .ok { sampleRoot with info := { sampleRoot.info with isProtectionEnabled := false } }) :=
  ⟨(C2_protect_unprotect sampleChild).1 (by decide),
   (C2_protect_unprotect sampleRoot).2 (by decide)⟩

/-- C7: detaching a live non-root child leaves it alive, makes it a root,
makes getParent at the default depth 1 fail for lack of a parent, and hands
back the node carrying the same stored value it was given. -/
theorem C7_detach (n : PNode) (_hroot : isRoot n = false) (halive : isAlive n = true) :
    isAlive (detach n) = true ∧
    isRoot (detach n) = true ∧
    getParent (detach n) 1 = .error (.parentNotFound 1) ∧
    (detach n).info.storedValue = n.info.storedValue := by
  refine ⟨halive, rfl, ?_, rfl⟩
  rfl

/-- C7 witness: the theorem applied to the concrete child sampleChild. -/
theorem C7_witness :
    isRoot sampleChild = false ∧ isAlive sampleChild = true ∧
    (isAlive (detach sampleChild) = true ∧
     isRoot (detach sampleChild) = true ∧
     getParent (detach sampleChild) 1 = .error (.parentNotFound 1) ∧
     (detach sampleChild).info.storedValue = sampleChild.info.storedValue) :=
  ⟨by decide, by decide, C7_detach sampleChild (by decide) (by decide)⟩

/-- C10: for every depth >= 1, hasParent answers exactly whether getParent
succeeds, and a successful getParent returns the stored value of the
ancestor exactly depth steps up the parent chain. -/
theorem C10_hasParent_getParent (n : PNode) (depth : Int) (hd : 1 ≤ depth) :
    (hasParent n depth = .ok true ↔ ∃ v, getParent n depth = .ok v) ∧
    (∀ v, getParent n depth = .ok v →
       ∃ a, ancestorAt n depth = some a ∧ a.storedValue = v) := by
  have hnn : ¬ depth < 0 := by omega
  have hg := getParentGo_pos depth n.parentChain depth hd
  have hh := hasParentGo_pos n.parentChain depth hd
  simp only [hasParent, getParent, if_neg hnn, hg, hh, ancestorAt]
  cases hoc : n.parentChain.get? (depth - 1).toNat with
  | none => simp
  | some a => simp

/-- C10 witness: the theorem applied to sampleChild at depth 1, where
getParent returns the root's stored value 7. -/
theorem C10_witness :
    (1 : Int) ≤ 1 ∧
    ((hasParent sampleChild 1 = .ok true ↔ ∃ v, getParent sampleChild 1 = .ok v) ∧
     (∀ v, getParent sampleChild 1 = .ok v →
        ∃ a, ancestorAt sampleChild 1 = some a ∧ a.storedValue = v)) :=
  ⟨by omega, C10_hasParent_getParent sampleChild 1 (by omega)⟩

/-- A resolved node as seen by the resolution APIs: the only field they
consult is its value. -/
structure ResolvedNode where
  value : Nat
deriving Repr, DecidableEq

/-- A state tree node as seen by path resolution.  The walk over escaped
path segments performed by Node.resolve is abstracted into a table from path
strings to the node they reach, when any. -/
structure RNode where
  resolveTable : List (String × ResolvedNode)
deriving Repr, DecidableEq

/-- Modelled from the spec: Node.resolve(path, throwOnFail) (the Node class
is not under src/) fails with a ResolutionError when throwOnFail is true and
a segment cannot be found, and returns undefined otherwise; on success it
returns the reached node. -/
def RNode.resolve (n : RNode) (path : String) (throwOnFail : Bool) :
    Except MstError (Option ResolvedNode) :=
  match n.resolveTable.lookup path with
  | some m => .ok (some m)
  | none => if throwOnFail then .error (.resolutionError path) else .ok none

/-- tryResolve from mst-operations.ts: resolve with throwOnFail = false,
return undefined when the result is undefined (or null), and the resolved
node's value otherwise. -/
def tryResolve (target : RNode) (path : String) : Except MstError (Option Nat) :=
  match target.resolve path false with
  | .error e => .error e
  | .ok none => .ok none
  | .ok (some m) => .ok (some m.value)

/-- Sample node for the resolution witnesses: one resolvable path a
reaching a node of value 9. -/
def sampleRNode : RNode := ⟨[("a", ⟨9⟩)]⟩

/-- C3: tryResolve never raises an error: when the path cannot be resolved
it returns undefined, and when resolution succeeds it returns the resolved
node's value. -/
theorem C3_tryResolve (target : RNode) (path : String) :
    (target.resolveTable.lookup path = none → tryResolve target path = .ok none) ∧
    (∀ m, target.resolveTable.lookup path = some m →
       tryResolve target path = .ok (some m.value)) := by
  constructor
  · intro hnone
    simp [tryResolve, RNode.resolve, hnone]
  · intro m hsome
    simp [tryResolve, RNode.resolve, hsome]

/-- C3 witness: the theorem applied to sampleRNode at an unresolvable and at
a resolvable path. -/
theorem C3_witness :
    tryResolve sampleRNode "missing" = .ok none ∧
    tryResolve sampleRNode "a" = .ok (some 9) :=
  ⟨(C3_tryResolve sampleRNode "missing").1 (by decide),
   (C3_tryResolve sampleRNode "a").2 ⟨9⟩ (by decide)⟩

/-- Argument passed as the first parameter of resolveIdentifier: either an
actual runtime type (identified here by a numeric type id) or anything else. -/
inductive TypeArg : Type where
  | isAType (typeId : Nat)
  | notAType
deriving Repr, DecidableEq

/-- Modelled from the spec: isType from the type layer (not under src/), the
check whether the argument is a runtime type object; here exactly the
discriminator of TypeArg. -/
def isType : TypeArg → Bool
  | .isAType _ => true
  | .notAType => false

/-- Identifier argument of resolveIdentifier: a string or a number. -/
inductive IdentifierArg : Type where
  | str (s : String)
  | num (n : Nat)
deriving Repr, DecidableEq

/-- String coercion of the identifier argument, the source's ("" + identifier). -/
def IdentifierArg.asString : IdentifierArg → String
  | .str s => s
  | .num n => toString n

/-- Modelled from the spec: the identifier cache present only on the root
node, mapping (type, identifier) pairs to the live node registered under
them within this tree. -/
structure IdentifierCache where
  entries : List ((Nat × String) × ResolvedNode)
deriving Repr, DecidableEq

/-- Modelled from the spec: identifierCache.resolve(type, identifierString)
returns the live node registered under that (type, identifier) pair within
this tree, or none. -/
def IdentifierCache.resolveId (c : IdentifierCache) (typeId : Nat) (ident : String) :
    Option ResolvedNode :=
  c.entries.lookup (typeId, ident)

/-- A state tree node as seen by resolveIdentifier: the only thing it
consults is the identifier cache of the target's root. -/
structure ICTarget where
  rootCache : IdentifierCache
deriving Repr, DecidableEq

/-- resolveIdentifier from mst-operations.ts: the source guards with
if (!isType(type)) fail("Expected a type as first argument") and then looks
the pair up in the root's identifier cache, returning the node's value or
undefined; here the guard and the subsequent use of the type are one pattern
match, isType being exactly its discriminator. -/
def resolveIdentifier (type : TypeArg) (target : ICTarget) (identifier : IdentifierArg) :
    Except MstError (Option Nat) :=
  match type with
  | .notAType => .error .expectedType
  | .isAType typeId =>
      .ok ((target.rootCache.resolveId typeId identifier.asString).map ResolvedNode.value)

/-- C9: resolveIdentifier fails with an InvalidArgumentError when its first
argument is not a type, and otherwise returns the value of the node that the
root's identifier cache registers under the (type, identifier) pair, or
undefined when the cache holds no such node. -/
theorem C9_resolveIdentifier (type : TypeArg) (target : ICTarget) (identifier : IdentifierArg) :
    (isType type = false →
       resolveIdentifier type target identifier = .error .expectedType ∧
       MstError.expectedType.isInvalidArgumentError = true) ∧
    (∀ typeId, type = .isAType typeId →
       resolveIdentifier type target identifier =
         .ok ((target.rootCache.resolveId typeId identifier.asString).map ResolvedNode.value)) := by
  constructor
  · intro hnt
    cases type with
    | isAType t => simp [isType] at hnt
    | notAType => exact ⟨rfl, rfl⟩
  · intro typeId hty
    subst hty
    rfl

/-- Sample identifier cache target for the C9 witness: type 2 registers the
identifier x on a node of value 11. -/
def sampleICTarget : ICTarget := ⟨⟨[((2, "x"), ⟨11⟩)]⟩⟩

/-- C9 witness: the theorem applied to a non-type first argument and to the
concrete type 2 with identifier x on sampleICTarget. -/
theorem C9_witness :
    (resolveIdentifier .notAType sampleICTarget (.str "x") = .error .expectedType ∧
     MstError.expectedType.isInvalidArgumentError = true) ∧
    resolveIdentifier (.isAType 2) sampleICTarget (.str "x") =
      .ok ((sampleICTarget.rootCache.resolveId 2 (IdentifierArg.str "x").asString).map
             ResolvedNode.value) :=
  ⟨(C9_resolveIdentifier .notAType sampleICTarget (.str "x")).1 (by decide),
   (C9_resolveIdentifier (.isAType 2) sampleICTarget (.str "x")).2 2 rfl⟩

/-- JSON patch operation kinds, spec section 6. -/
inductive PatchOp : Type where
  | add
  | remove
  | replace
deriving Repr, DecidableEq

/-- JSON patch object shape from the spec, section 6: op, root-relative
escaped path, and optional value / oldValue. -/
structure IJsonPatch where
  op : PatchOp
  path : String
  value : Option Nat
  oldValue : Option Nat
deriving Repr, DecidableEq

/-- Serialized action call shape from the spec, section 6: name, path, args. -/
structure ISerializedActionCall where
  name : String
  path : String
  args : List Nat
deriving Repr, DecidableEq

/-- A tree snapshot abstracted as a finite map from escaped paths to leaf
values. -/
abbrev TreeSnap := List (String × Nat)

/-- Modelled from the spec: the application of one patch object to the
snapshot (delegated by the Node to the type layer, not under src/): add and
replace set the entry at the patch's path, remove deletes it. -/
def applyOnePatch (s : TreeSnap) (p : IJsonPatch) : TreeSnap :=
  match p.op with
  | .add => (p.path, p.value.getD 0) :: s.filter (fun kv => !(kv.1 == p.path))
  | .replace => (p.path, p.value.getD 0) :: s.filter (fun kv => !(kv.1 == p.path))
  | .remove => s.filter (fun kv => !(kv.1 == p.path))

/-- The semantic effect of replaying one serialized action call on a
snapshot.  Action bodies live in the user's model definitions (the type
layer, an external collaborator), so the transformer is a parameter. -/
structure ActionSemantics where
  applyOne : TreeSnap → ISerializedActionCall → TreeSnap

/-- Observable events of an instrumented execution: atomic unit boundaries,
inline patch-listener notifications, action applications, and the deferred
snapshot-listener notification flushed at the outermost boundary. -/
inductive TraceEvent : Type where
  | txBegin
  | txEnd
  | patchNotify (p : IJsonPatch)
  | actionApplied (a : ISerializedActionCall)
  | snapshotNotify
deriving Repr, DecidableEq

/-- Events that correspond to a patch or snapshot listener firing. -/
def TraceEvent.isListenerFiring : TraceEvent → Bool
  | .patchNotify _ => true
  | .snapshotNotify => true
  | .txBegin => false
  | .txEnd => false
  | .actionApplied _ => false

/-- Instrumented execution state of one tree: its snapshot, the nesting
depth of atomic units, whether a mutation is pending its deferred snapshot
notification, and the trace of events emitted so far. -/
structure TxState where
  snap : TreeSnap
  depth : Nat
  dirty : Bool
  events : List TraceEvent
deriving Repr

/-- Modelled from the spec: runInAction, the runInAtomicUnit primitive of
section 5 (mobx is an external collaborator): enter a nested atomic unit,
run the body, leave, and only at the outermost boundary flush the deferred
snapshot-listener notification when a mutation happened. -/
def runInAction (f : TxState → TxState) (s : TxState) : TxState :=
  let s1 : TxState := { s with depth := s.depth + 1, events := s.events ++ [.txBegin] }
  let s2 := f s1
  let s3 : TxState := { s2 with depth := s2.depth - 1, events := s2.events ++ [.txEnd] }
  if s3.depth = 0 && s3.dirty then
    { s3 with dirty := false, events := s3.events ++ [.snapshotNotify] }
  else s3

/-- Modelled from the spec: the node applies one patch, notifying onPatch
listeners inline (patch listeners are not deferred) and marking the tree
dirty for the deferred snapshot notification. -/
def applyOnePatchStep (s : TxState) (p : IJsonPatch) : TxState :=
  { s with
      snap := applyOnePatch s.snap p,
      dirty := true,
      events := s.events ++ [.patchNotify p] }

/-- Modelled from the spec: baseApplyAction from core/action.ts (not under
src/) resolves the action's path and invokes the named action, transforming
the snapshot by the action's semantics; the application is a mutation, so it
marks the tree dirty. -/
def baseApplyAction (sem : ActionSemantics) (s : TxState) (a : ISerializedActionCall) : TxState :=
  { s with
      snap := sem.applyOne s.snap a,
      dirty := true,
      events := s.events ++ [.actionApplied a] }

/-- Modelled from the spec: Node.applyPatches (not under src/) applies an
ordered sequence of patch objects as one atomic unit. -/
def applyPatches (patches : List IJsonPatch) (s : TxState) : TxState :=
  runInAction (fun st => patches.foldl applyOnePatchStep st) s

/-- applyPatch from mst-operations.ts: normalizes its argument with asArray
(here the argument is already a list) and hands it to Node.applyPatches. -/
def applyPatch (patches : List IJsonPatch) (s : TxState) : TxState :=
  applyPatches patches s

/-- applyAction from mst-operations.ts: runs baseApplyAction for each of the
given actions inside one single runInAction transaction. -/
def applyAction (sem : ActionSemantics) (actions : List ISerializedActionCall) (s : TxState) :
    TxState :=
  runInAction (fun st => actions.foldl (baseApplyAction sem) st) s

/-- The patch recorder of recordPatches: its ordered list of recorded
patches. -/
structure PatchRecorder where
  patches : List IJsonPatch
deriving Repr, DecidableEq

/-- The listener that recordPatches registers through onPatch at
construction time: it pushes the emitted patch onto recorder.patches. -/
def recordPatchesListener (r : PatchRecorder) (patch : IJsonPatch) : PatchRecorder :=
  { r with patches := r.patches ++ [patch] }

/-- One recording session of recordPatches: the recorder starts with an
empty list and its listener receives each patch the subject emits, in
emission order. -/
def recordPatchesRun (emitted : List IJsonPatch) : PatchRecorder :=
  emitted.foldl recordPatchesListener ⟨[]⟩

/-- replay of the patch recorder: applyPatch(target, recorder.patches). -/
def PatchRecorder.replay (r : PatchRecorder) (target : TxState) : TxState :=
  applyPatch r.patches target

/-- The action recorder of recordActions: its ordered list of recorded
serialized action calls. -/
structure ActionRecorder where
  actions : List ISerializedActionCall
deriving Repr, DecidableEq

/-- The listener that recordActions registers through onAction at
construction time: recorder.actions.push bound to the recorder. -/
def recordActionsListener (r : ActionRecorder) (a : ISerializedActionCall) : ActionRecorder :=
  { r with actions := r.actions ++ [a] }

/-- One recording session of recordActions, in emission order. -/
def recordActionsRun (emitted : List ISerializedActionCall) : ActionRecorder :=
  emitted.foldl recordActionsListener ⟨[]⟩

/-- replay of the action recorder: applyAction(target, recorder.actions). -/
def ActionRecorder.replay (r : ActionRecorder) (sem : ActionSemantics) (target : TxState) :
    TxState :=
  applyAction sem r.actions target

theorem recordPatchesListener_foldl :
    ∀ (emitted : List IJsonPatch) (r : PatchRecorder),
      (emitted.foldl recordPatchesListener r).patches = r.patches ++ emitted := by
  intro emitted
  induction emitted with
  | nil => intro r; simp
  | cons p rest ih =>
      intro r
      simp [List.foldl, ih, recordPatchesListener]

theorem recordActionsListener_foldl :
    ∀ (emitted : List ISerializedActionCall) (r : ActionRecorder),
      (emitted.foldl recordActionsListener r).actions = r.actions ++ emitted := by
  intro emitted
  induction emitted with
  | nil => intro r; simp
  | cons a rest ih =>
      intro r
      simp [List.foldl, ih, recordActionsListener]

theorem applyOnePatchStep_foldl :
    ∀ (patches : List IJsonPatch) (st : TxState),
      patches.foldl applyOnePatchStep st =
        { snap := patches.foldl applyOnePatch st.snap,
          depth := st.depth,
          dirty := st.dirty || !patches.isEmpty,
          events := st.events ++ patches.map TraceEvent.patchNotify } := by
  intro patches
  induction patches with
  | nil => intro st; simp
  | cons p rest ih =>
      intro st
      simp [List.foldl, applyOnePatchStep, ih]

theorem baseApplyAction_foldl (sem : ActionSemantics) :
    ∀ (actions : List ISerializedActionCall) (st : TxState),
      actions.foldl (baseApplyAction sem) st =
        { snap := actions.foldl sem.applyOne st.snap,
          depth := st.depth,
          dirty := st.dirty || !actions.isEmpty,
          events := st.events ++ actions.map TraceEvent.actionApplied } := by
  intro actions
  induction actions with
  | nil => intro st; simp
  | cons a rest ih =>
      intro st
      simp [List.foldl, baseApplyAction, ih]

theorem applyPatch_run (patches : List IJsonPatch) (s : TxState)
    (hdepth : s.depth = 0) (hdirty : s.dirty = false) :
    applyPatch patches s =
      { snap := patches.foldl applyOnePatch s.snap,
        depth := 0,
        dirty := false,
        events := s.events ++ [.txBegin] ++ patches.map TraceEvent.patchNotify ++ [.txEnd]
                  ++ if patches.isEmpty then [] else [.snapshotNotify] } := by
  cases hp : patches.isEmpty <;>
    simp [applyPatch, applyPatches, runInAction, applyOnePatchStep_foldl, hp, hdepth, hdirty]

theorem applyAction_run (sem : ActionSemantics) (actions : List ISerializedActionCall)
    (s : TxState) (hdepth : s.depth = 0) (hdirty : s.dirty = false) :
    applyAction sem actions s =
      { snap := actions.foldl sem.applyOne s.snap,
        depth := 0,
        dirty := false,
        events := s.events ++ [.txBegin] ++ actions.map TraceEvent.actionApplied ++ [.txEnd]
                  ++ if actions.isEmpty then [] else [.snapshotNotify] } := by
  cases ha : actions.isEmpty <;>
    simp [applyAction, runInAction, baseApplyAction_foldl, ha, hdepth, hdirty]

/-- Sample data for the transaction-model witnesses. -/
def samplePatch1 : IJsonPatch := ⟨.add, "/x", some 3, none⟩

/-- Second sample patch, replacing the value added by samplePatch1. -/
def samplePatch2 : IJsonPatch := ⟨.replace, "/x", some 4, some 3⟩

/-- Sample emitted patch sequence. -/
def samplePatches : List IJsonPatch := [samplePatch1, samplePatch2]

/-- Sample serialized action call. -/
def sampleAct1 : ISerializedActionCall := ⟨"inc", "/x", [1]⟩

/-- Sample emitted action sequence. -/
def sampleActs : List ISerializedActionCall := [sampleAct1]

/-- Sample action semantics: an action call prepends its path with the
number of its arguments. -/
def sampleSem : ActionSemantics := ⟨fun s a => (a.path, a.args.length) :: s⟩

/-- A quiescent tree: empty snapshot, no open atomic unit, no pending
snapshot notification, empty trace. -/
def emptyTx : TxState := ⟨[], 0, false, []⟩

/-- C4: a patch recorder holds exactly the patches its subject emitted, in
emission order, and its replay is applyPatch of that recorded sequence: one
atomic unit inside which the patches are applied, and their listener
notifications emitted, in that same order; the action recorder behaves the
same way for serialized action calls. -/
theorem C4_record_replay (emitted : List IJsonPatch) (acts : List ISerializedActionCall)
    (sem : ActionSemantics) (target : TxState)
    (hdepth : target.depth = 0) (hdirty : target.dirty = false) :
    (recordPatchesRun emitted).patches = emitted ∧
    (recordPatchesRun emitted).replay target = applyPatch emitted target ∧
    (applyPatch emitted target).snap = emitted.foldl applyOnePatch target.snap ∧
    (applyPatch emitted target).events =
      target.events ++ [.txBegin] ++ emitted.map TraceEvent.patchNotify ++ [.txEnd]
        ++ (if emitted.isEmpty then [] else [.snapshotNotify]) ∧
    (recordActionsRun acts).actions = acts ∧
    (recordActionsRun acts).replay sem target = applyAction sem acts target ∧
    (applyAction sem acts target).snap = acts.foldl sem.applyOne target.snap ∧
    (applyAction sem acts target).events =
      target.events ++ [.txBegin] ++ acts.map TraceEvent.actionApplied ++ [.txEnd]
        ++ (if acts.isEmpty then [] else [.snapshotNotify]) := by
  have hpat : (recordPatchesRun emitted).patches = emitted := by
    simpa using recordPatchesListener_foldl emitted ⟨[]⟩
  have hact : (recordActionsRun acts).actions = acts := by
    simpa using recordActionsListener_foldl acts ⟨[]⟩
  have hreplayP : (recordPatchesRun emitted).replay target = applyPatch emitted target := by
    simp [PatchRecorder.replay, hpat]
  have hreplayA : (recordActionsRun acts).replay sem target = applyAction sem acts target := by
    simp [ActionRecorder.replay, hact]
  have hrunP := applyPatch_run emitted target hdepth hdirty
  have hrunA := applyAction_run sem acts target hdepth hdirty
  exact ⟨hpat, hreplayP, by simp [hrunP], by simp [hrunP], hact, hreplayA,
         by simp [hrunA], by simp [hrunA]⟩

/-- C4 witness: the theorem applied to the concrete emitted sequences
samplePatches and sampleActs on the quiescent tree emptyTx. -/
theorem C4_witness :
    (recordPatchesRun samplePatches).patches = samplePatches ∧
    (recordPatchesRun samplePatches).replay emptyTx = applyPatch samplePatches emptyTx ∧
    (recordActionsRun sampleActs).actions = sampleActs ∧
    (recordActionsRun sampleActs).replay sampleSem emptyTx =
      applyAction sampleSem sampleActs emptyTx :=
  ⟨(C4_record_replay samplePatches sampleActs sampleSem emptyTx rfl rfl).1,
   (C4_record_replay samplePatches sampleActs sampleSem emptyTx rfl rfl).2.1,
   (C4_record_replay samplePatches sampleActs sampleSem emptyTx rfl rfl).2.2.2.2.1,
   (C4_record_replay samplePatches sampleActs sampleSem emptyTx rfl rfl).2.2.2.2.2.1⟩

/-- C5: applyAction applies the whole ordered list of actions inside one
single transaction: starting from a quiescent tree, the emitted trace is one
txBegin, then the action applications in order, then one txEnd, with the
deferred snapshot notification flushed once at that single outermost
boundary. -/
theorem C5_applyAction_atomic (sem : ActionSemantics) (actions : List ISerializedActionCall)
    (s : TxState) (hdepth : s.depth = 0) (hdirty : s.dirty = false) :
    applyAction sem actions s =
      { snap := actions.foldl sem.applyOne s.snap,
        depth := 0,
        dirty := false,
        events := s.events ++ [.txBegin] ++ actions.map TraceEvent.actionApplied ++ [.txEnd]
                  ++ if actions.isEmpty then [] else [.snapshotNotify] } :=
  applyAction_run sem actions s hdepth hdirty

/-- C5 witness: the theorem applied to sampleSem, sampleActs and emptyTx. -/
theorem C5_witness :
    applyAction sampleSem sampleActs emptyTx =
      { snap := sampleActs.foldl sampleSem.applyOne emptyTx.snap,
        depth := 0,
        dirty := false,
        events := emptyTx.events ++ [.txBegin]
                  ++ sampleActs.map TraceEvent.actionApplied ++ [.txEnd]
                  ++ if sampleActs.isEmpty then [] else [.snapshotNotify] } :=
  C5_applyAction_atomic sampleSem sampleActs emptyTx rfl rfl

/-- C8: applying an empty patch list or an empty action list leaves the
whole tree state unchanged — only the trace records the entered-and-left
atomic unit — and neither a patch listener nor a snapshot listener fires
(the two boundary events are not listener notifications). -/
theorem C8_empty_noop (s : TxState) (sem : ActionSemantics) (hdirty : s.dirty = false) :
    applyPatch [] s = { s with events := s.events ++ [.txBegin, .txEnd] } ∧
    applyAction sem [] s = { s with events := s.events ++ [.txBegin, .txEnd] } ∧
    (applyPatch [] s).snap = s.snap ∧
    (applyAction sem [] s).snap = s.snap ∧
    [TraceEvent.txBegin, TraceEvent.txEnd].filter TraceEvent.isListenerFiring = [] := by
  have hp : applyPatch [] s = { s with events := s.events ++ [.txBegin, .txEnd] } := by
    simp [applyPatch, applyPatches, runInAction, List.foldl, hdirty]
  have ha : applyAction sem [] s = { s with events := s.events ++ [.txBegin, .txEnd] } := by
    simp [applyAction, runInAction, List.foldl, hdirty]
  exact ⟨hp, ha, by simp [hp], by simp [ha], rfl⟩

/-- C8 witness: the theorem applied to the quiescent tree emptyTx. -/
theorem C8_witness :
    applyPatch [] emptyTx = { emptyTx with events := emptyTx.events ++ [.txBegin, .txEnd] } ∧
    applyAction sampleSem [] emptyTx =
      { emptyTx with events := emptyTx.events ++ [.txBegin, .txEnd] } ∧
    (applyPatch [] emptyTx).snap = emptyTx.snap ∧
    (applyAction sampleSem [] emptyTx).snap = emptyTx.snap ∧
    [TraceEvent.txBegin, TraceEvent.txEnd].filter TraceEvent.isListenerFiring = [] :=
  C8_empty_noop emptyTx sampleSem rfl

/-- Per-node record of the store-based model used for destroy: the parent
link (by node id), the subpath under which the node sits in its parent, and
the alive flag. -/
structure DNode where
  parent : Option Nat
  subpath : String
  isAlive : Bool
deriving Repr, DecidableEq

/-- A whole tree: its nodes indexed by node ids. -/
abbrev Store := List (Nat × DNode)

/-- Does the chain of parent links starting at cur pass through the node
anc?  The walk carries fuel; the store size is enough fuel for any chain in
a tree, where parent links never revisit a node. -/
def chainReaches (s : Store) (anc : Nat) : Option Nat → Nat → Bool
  | _, 0 => false
  | none, _ => false
  | some j, fuel + 1 =>
      j == anc ||
      match s.lookup j with
      | none => false
      | some nd => chainReaches s anc nd.parent fuel

/-- Membership of node j in the subtree rooted at i: j is i itself, or the
chain of parent links above j passes through i. -/
def subtreeMember (s : Store) (i j : Nat) : Bool :=
  j == i ||
  match s.lookup j with
  | none => false
  | some nd => chainReaches s i nd.parent s.length

/-- Modelled from the spec: Node.die (the Node class is not under src/)
marks isAlive false on this node and, dying being transitive, on every
descendant node; disposers and listener registries are outside this model. -/
def die (s : Store) (i : Nat) : Store :=
  s.map (fun e => (e.1, if subtreeMember s i e.1 then { e.2 with isAlive := false } else e.2))

/-- Modelled from the spec: parent.removeChild(subpath) (the Node class is
not under src/) removes the child registered under the given subpath and
then calls die on it. -/
def removeChild (s : Store) (p : Nat) (sub : String) : Store :=
  match s.find? (fun e => e.2.parent == some p && e.2.subpath == sub) with
  | none => s
  | some e => die s e.1

/-- destroy from mst-operations.ts: on a root node it calls die on the node
directly; on a non-root it lets the parent remove the child registered under
the node's subpath, which then kills it.  The failure of getStateTreeNode on
a non-node argument is out of scope here: an id absent from the store leaves
it unchanged, and the claim theorem requires the id to be present. -/
def destroy (s : Store) (i : Nat) : Store :=
  match s.lookup i with
  | none => s
  | some nd =>
      match nd.parent with
      | none => die s i
      | some p => removeChild s p nd.subpath

/-- isAlive of a node of the store-based model, by id. -/
def isAliveIn (s : Store) (i : Nat) : Option Bool :=
  (s.lookup i).map DNode.isAlive

theorem lookup_die (sOrig : Store) (tgt : Nat) :
    ∀ (s : Store) (i : Nat) (nd : DNode), s.lookup i = some nd →
      (s.map (fun e =>
          (e.1, if subtreeMember sOrig tgt e.1 then { e.2 with isAlive := false } else e.2))).lookup i
        = some (if subtreeMember sOrig tgt i then { nd with isAlive := false } else nd) := by
  intro s
  induction s with
  | nil => intro i nd h; simp [List.lookup] at h
  | cons hd tl ih =>
      intro i nd h
      obtain ⟨k, v⟩ := hd
      by_cases hik : i = k
      · subst hik
        simp [List.lookup] at h
        subst h
        simp [List.lookup]
      · have hbe : (i == k) = false := beq_false_of_ne hik
        simp [List.lookup, hbe] at h
        simpa [List.lookup, hbe] using ih i nd h

theorem subtreeMember_self (s : Store) (i : Nat) : subtreeMember s i i = true := by
  simp [subtreeMember]

theorem isAliveIn_die_self (s : Store) (i : Nat) (nd : DNode) (h : s.lookup i = some nd) :
    isAliveIn (die s i) i = some false := by
  have hl := lookup_die s i s i nd h
  simp [subtreeMember_self] at hl
  simp [isAliveIn, die, hl]

/-- C6: destroy on a root node calls die on that node directly, on a
non-root it removes the node from its parent under the node's subpath, and
in either case isAlive of the node is false afterwards.  The second
hypothesis states the store's tree consistency: the child registered under
the node's parent and subpath is the node itself. -/
theorem C6_destroy (s : Store) (i : Nat) (nd : DNode)
    (hmem : s.lookup i = some nd)
    (hchild : ∀ p, nd.parent = some p →
       s.find? (fun e => e.2.parent == some p && e.2.subpath == nd.subpath) = some (i, nd)) :
    (nd.parent = none → destroy s i = die s i) ∧
    (∀ p, nd.parent = some p → destroy s i = removeChild s p nd.subpath) ∧
    isAliveIn (destroy s i) i = some false := by
  refine ⟨?_, ?_, ?_⟩
  · intro hroot
    simp [destroy, hmem, hroot]
  · intro p hp
    simp [destroy, hmem, hp]
  · cases hp : nd.parent with
    | none =>
        simp only [destroy, hmem, hp]
        exact isAliveIn_die_self s i nd hmem
    | some p =>
        simp only [destroy, hmem, hp, removeChild, hchild p hp]
        exact isAliveIn_die_self s i nd hmem

/-- Sample two-node store for the C6 witness: node 0 is the root, node 1 a
live child of it under subpath kid. -/
def sampleStore : Store := [(0, ⟨none, "", true⟩), (1, ⟨some 0, "kid", true⟩)]

/-- Record of the child node 1 of sampleStore. -/
def sampleStoreChild : DNode := ⟨some 0, "kid", true⟩

/-- C6 witness: the theorem applied to the non-root node 1 of sampleStore;
destroying it goes through removeChild of its parent and leaves it dead. -/
theorem C6_witness :
    (sampleStoreChild.parent = none → destroy sampleStore 1 = die sampleStore 1) ∧
    (∀ p, sampleStoreChild.parent = some p →
       destroy sampleStore 1 = removeChild sampleStore p sampleStoreChild.subpath) ∧
    isAliveIn (destroy sampleStore 1) 1 = some false :=
  C6_destroy sampleStore 1 sampleStoreChild (by decide)
    (by
      intro p hp
      have hp0 : p = 0 := by
        have := hp
        simp [sampleStoreChild] at this
        omega
      subst hp0
      decide)

end MST
